import Mathlib

set_option maxRecDepth 16384
set_option maxHeartbeats 1000000

/-!
Formal model of the pairing-and-batch-verification core of `claims_checker.py`:
filename normalization (`get_base_name`), key-based pair matching over the two
dictionaries `pdf_dict` / `csv_dict`, the sequential batch loop with per-pair
failure isolation, the result counters and the downloadable report text.
Each definition mirrors one construct of the source file; the theorems at the
end settle the specification claims.
-/

/-- Python whitespace test used by `str.strip()` (ASCII whitespace). -/
def isPyWs (c : Char) : Bool :=
  c == ' ' || c == '\t' || c == '\n' || c == '\r' || c == '\x0b' || c == '\x0c'

/-- Models Python `str.strip()`: drop whitespace from both ends. -/
def pyStrip (s : List Char) : List Char :=
  ((s.dropWhile isPyWs).reverse.dropWhile isPyWs).reverse

/-- Final path component of a name, as `pathlib` computes `Path(filename).name`
(trailing separators ignored, everything up to the last `/` dropped). -/
def basename (s : List Char) : List Char :=
  ((s.reverse.dropWhile (fun c => c == '/')).takeWhile (fun c => c != '/')).reverse

/-- Models CPython `PurePath.stem`: with `i` the index of the last dot, the
suffix from `i` on is removed only when `0 < i < len(name) - 1`; otherwise the
name is returned unchanged (so `.pdf` and `a.` keep their dot). -/
def stemOf (nm : List Char) : List Char :=
  let r := nm.reverse.findIdx (fun c => c == '.')
  if r < nm.length then
    let i := nm.length - 1 - r
    if 0 < i ∧ i < nm.length - 1 then nm.take i else nm
  else nm

/-- One step of Python `str.replace(pat, "")` with a fuel argument (the fuel is
the length of the scanned list, which bounds the number of steps): scan left to
right, removing each non-overlapping occurrence of `pat`. -/
def removeTokFuel (pat : List Char) : Nat → List Char → List Char
  | _, [] => []
  | 0, s => s
  | Nat.succ fuel, c :: rest =>
    if pat.isPrefixOf (c :: rest) then
      removeTokFuel pat fuel (List.drop pat.length (c :: rest))
    else
      c :: removeTokFuel pat fuel rest

/-- Python `s.replace(pat, "")`: remove every non-overlapping occurrence of
`pat` anywhere in `s`, scanning left to right. -/
def removeTok (pat : List Char) (s : List Char) : List Char :=
  removeTokFuel pat s.length s

/-- The fixed ordered token list of `get_base_name` (line 65 of the source). -/
def suffixTokens : List (List Char) :=
  ["_invoice".data, "_claim".data, "_statement".data,
   " invoice".data, " claim".data, " statement".data]

/-- `get_base_name` (source lines 61-67): `Path(filename).stem`, then
`name.replace(suffix, '')` for each token in order, then `name.strip().lower()`. -/
def get_base_name (filename : String) : String :=
  let nm := stemOf (basename filename.data)
  let nm2 := suffixTokens.foldl (fun n tok => removeTok tok n) nm
  String.mk (List.map Char.toLower (pyStrip nm2))

/-- Modelled from claim C4's words only (not from the source), for comparison
with `get_base_name`: here the extension is "the portion after the last `.`"
and it is stripped (together with the dot) whenever a dot occurs at all. -/
def dropAfterLastDot (s : List Char) : List Char :=
  ((s.reverse.dropWhile (fun c => c != '.')).drop 1).reverse

/-- Modelled from claim C4's words only: the stem is everything before the last
dot when a dot exists, the whole name otherwise. -/
def claimStem (s : List Char) : List Char :=
  if s.contains '.' then dropAfterLastDot s else s

/-- Modelled from claim C4's words only: strip the portion after the last dot,
remove the six tokens anywhere as substrings, lower-case and trim. -/
def claim_normalize (f : String) : String :=
  let nm := claimStem f.data
  let nm2 := suffixTokens.foldl (fun n tok => removeTok tok n) nm
  String.mk (List.map Char.toLower (pyStrip nm2))

/-! ## Pair matching

A Python `dict` built by a comprehension is modelled as an association list in
first-insertion key order: inserting an existing key replaces its value in
place, a new key is appended at the end.  Files are represented by their names
(`.name` is the only attribute the matching code reads). -/

/-- Python `d[k]` / `k in d`: value of the first (unique) entry with key `k`. -/
def dlookup (k : String) : List (String × String) → Option String
  | [] => none
  | kv :: rest => if kv.1 = k then some kv.2 else dlookup k rest

/-- Python `d[k] = v`: replace in place when the key exists, append otherwise. -/
def dinsert (k v : String) : List (String × String) → List (String × String)
  | [] => [(k, v)]
  | kv :: rest => if kv.1 = k then (kv.1, v) :: rest else kv :: dinsert k v rest

/-- The dict comprehension `{get_base_name(f.name): f for f in files}` (source
lines 70-71): later files overwrite earlier ones at the same key. -/
def buildDict (files : List String) : List (String × String) :=
  files.foldl (fun d f => dinsert (get_base_name f) f d) []

/-- The last file of `files` whose normalized name is `k`, if any. -/
def lastWithKey (k : String) : List String → Option String
  | [] => none
  | f :: rest =>
    match lastWithKey k rest with
    | some v => some v
    | none => if get_base_name f = k then some f else none

/-- Output of the matching phase (source lines 74-86). -/
structure MatchResult where
  pairs : List (String × String)
  unmatchedPdfs : List String
  unmatchedCsvs : List String
deriving DecidableEq

/-- The two matching loops of source lines 74-86: every `pdf_dict` entry whose
key is in `csv_dict` yields a pair `(pdf, csv_dict[name])`, the others go to
`unmatched_pdfs`; `csv_dict` entries with keys absent from `pdf_dict` go to
`unmatched_csvs`. -/
def matchFiles (pdfs csvs : List String) : MatchResult :=
  let pdfDict := buildDict pdfs
  let csvDict := buildDict csvs
  { pairs := pdfDict.filterMap
      (fun kv => (dlookup kv.1 csvDict).map (fun c => (kv.2, c))),
    unmatchedPdfs := pdfDict.filterMap
      (fun kv => match dlookup kv.1 csvDict with
        | some _ => none
        | none => some kv.2),
    unmatchedCsvs := csvDict.filterMap
      (fun kv => match dlookup kv.1 pdfDict with
        | some _ => none
        | none => some kv.2) }

/-! ## Batch loop, counters, report -/

/-- One row of the `results` list (source lines 257-268). -/
structure Outcome where
  pdf : String
  csv : String
  result : String
deriving DecidableEq

/-- The recorded text of the `except` branch (source line 267):
`f"❌ Error processing: {str(e)}"`. -/
def errorResult (e : String) : String := "❌ Error processing: " ++ e

/-- The per-pair loop of source lines 117-271.  The oracle stands for the whole
`try` body (file reads plus the `client.messages.create` call and response
extraction); an exception value is its message `str(e)`. -/
def runBatch (oracle : String → String → Except String String)
    (pairs : List (String × String)) : List Outcome :=
  pairs.map (fun pr =>
    match oracle pr.1 pr.2 with
    | Except.ok t => { pdf := pr.1, csv := pr.2, result := t }
    | Except.error e => { pdf := pr.1, csv := pr.2, result := errorResult e })

/-- Python `"DISCREPANCY" in s`: case-sensitive substring containment. -/
def containsSub (pat : List Char) : List Char → Bool
  | [] => pat.isEmpty
  | c :: rest => pat.isPrefixOf (c :: rest) || containsSub pat rest

/-- The test `"DISCREPANCY" in r["result"]` of source lines 280 and 291. -/
def containsDiscrepancy (s : String) : Bool :=
  containsSub "DISCREPANCY".data s.data

/-- Source line 280: `sum(1 for r in results if "DISCREPANCY" in r["result"])`. -/
def discrepancy_count (results : List Outcome) : Nat :=
  (results.filter (fun r => containsDiscrepancy r.result)).length

/-- Source line 281: `match_count = total_pairs - discrepancy_count`, where
`total_pairs = len(matched_pairs) = len(results)` (one outcome per pair). -/
def match_count (results : List Outcome) : Nat :=
  results.length - discrepancy_count results

/-- The per-outcome classification implicit in lines 280 and 291: results with
the marker count as discrepancies, everything else as a match. -/
inductive Status where
  | Match
  | Discrepancy
deriving DecidableEq

/-- Classification of a recorded result text, as lines 280/291 apply it. -/
def classifyResult (s : String) : Status :=
  if containsDiscrepancy s then Status.Discrepancy else Status.Match

/-- `"="*80` (source line 295). -/
def ruleLine : String := String.mk (List.replicate 80 '=')

/-- One element of the list comprehension of source lines 295-298, at 1-based
index `idx`. -/
def renderBlock (idx : Nat) (r : Outcome) : String :=
  "CLAIM #" ++ toString idx ++ "\nPDF: " ++ r.pdf ++ "\nCSV: " ++ r.csv ++
    "\n\n" ++ r.result

/-- The blocks of `enumerate(results, 1)` starting at index `i`. -/
def renderBlocks : Nat → List Outcome → List String
  | _, [] => []
  | i, r :: rest => renderBlock i r :: renderBlocks (i + 1) rest

/-- Source lines 295-298 with Python operator precedence kept intact:
`"\n\n" + "="*80 + "\n\n".join(blocks)` — the rule is a one-off prefix glued
to the first block, and the blocks are joined by a blank line only. -/
def results_text (results : List Outcome) : String :=
  "\n\n" ++ ruleLine ++ String.intercalate "\n\n" (renderBlocks 1 results)

/-- Why a run stops before the batch loop. -/
inductive RunAbort where
  | unconfirmedStop
  | noMatch
deriving DecidableEq

/-- The control flow of source lines 91-117: with unmatched files and no
confirmation the run stops (line 99); with zero matched pairs it stops with the
no-matches error (lines 101-104); otherwise the batch loop runs. -/
def processRun (confirmed : Bool) (oracle : String → String → Except String String)
    (pdfs csvs : List String) : Except RunAbort (List Outcome) :=
  let m := matchFiles pdfs csvs
  if (!(m.unmatchedPdfs.isEmpty) || !(m.unmatchedCsvs.isEmpty)) && !confirmed then
    Except.error RunAbort.unconfirmedStop
  else if m.pairs.length = 0 then
    Except.error RunAbort.noMatch
  else
    Except.ok (runBatch oracle m.pairs)

/-- Claim C4's amended normalization: `Path.stem` semantics for the extension
(the suffix is dropped only when the last dot is an interior character), then
the six tokens removed anywhere as substrings in their fixed order, then the
result trimmed and lower-cased. -/
def normalize_amended (f : String) : String :=
  let nm := stemOf (basename f.data)
  let nm2 := removeTok " statement".data (removeTok " claim".data
    (removeTok " invoice".data (removeTok "_statement".data
      (removeTok "_claim".data (removeTok "_invoice".data nm)))))
  String.mk (List.map Char.toLower (pyStrip nm2))

/-- A concrete oracle that fails on the first pair and answers the second. -/
def oracleW : String → String → Except String String :=
  fun p _ => if p = "a.pdf" then Except.error "boom" else Except.ok "All fields match"

/-- A concrete oracle whose failure message carries no marker. -/
def failOracle : String → String → Except String String :=
  fun _ _ => Except.error "connection timeout"

/-- A concrete oracle whose failure message contains the marker text. -/
def failDiscOracle : String → String → Except String String :=
  fun _ _ => Except.error "DISCREPANCY checker crashed"

/-- A concrete outcome used to evaluate the report text. -/
def outA : Outcome := ⟨"a.pdf", "a.csv", "R1"⟩

/-- A second concrete outcome used to evaluate the report text. -/
def outB : Outcome := ⟨"b.pdf", "b.csv", "R2"⟩

/-! ## Dictionary lemmas -/

theorem dlookup_dinsert (d : List (String × String)) (k v k' : String) :
    dlookup k' (dinsert k v d) = if k' = k then some v else dlookup k' d := by
  induction d with
  | nil =>
    by_cases h : k' = k
    · subst h; simp [dinsert, dlookup]
    · have h2 : ¬k = k' := fun hh => h hh.symm
      simp [dinsert, dlookup, h, h2]
  | cons kv rest ih =>
    by_cases h1 : kv.1 = k
    · by_cases h2 : k' = k
      · subst h2; simp [dinsert, dlookup, h1]
      · have h3 : kv.1 ≠ k' := fun hh => h2 (hh ▸ h1)
        have h4 : ¬k = k' := fun hh => h2 hh.symm
        simp [dinsert, dlookup, h1, h2, h3, h4]
    · by_cases h2 : kv.1 = k'
      · have h3 : k' ≠ k := fun hh => h1 (h2.trans hh)
        simp [dinsert, dlookup, h1, h2, h3]
      · simp [dinsert, dlookup, h1, h2, ih]

theorem mem_dinsert (d : List (String × String)) (k v : String)
    (kv' : String × String) (h : kv' ∈ dinsert k v d) : kv' ∈ d ∨ kv' = (k, v) := by
  induction d with
  | nil => simp [dinsert] at h; simp [h]
  | cons kv rest ih =>
    by_cases h1 : kv.1 = k
    · simp only [dinsert, if_pos h1] at h
      rcases List.mem_cons.mp h with h2 | h2
      · right; rw [h2, h1]
      · left; exact List.mem_cons_of_mem kv h2
    · simp only [dinsert, if_neg h1] at h
      rcases List.mem_cons.mp h with h2 | h2
      · left; exact h2 ▸ List.mem_cons_self kv rest
      · rcases ih h2 with h3 | h3
        · left; exact List.mem_cons_of_mem kv h3
        · right; exact h3

theorem nodup_keys_dinsert (d : List (String × String)) (k v : String)
    (h : (d.map Prod.fst).Nodup) : ((dinsert k v d).map Prod.fst).Nodup := by
  induction d with
  | nil => simp [dinsert]
  | cons kv rest ih =>
    rw [List.map_cons, List.nodup_cons] at h
    by_cases h1 : kv.1 = k
    · simp only [dinsert, if_pos h1, List.map_cons, List.nodup_cons]
      exact h
    · simp only [dinsert, if_neg h1, List.map_cons, List.nodup_cons]
      refine ⟨?_, ih h.2⟩
      intro hmem
      rcases List.mem_map.mp hmem with ⟨kv', hkv', hfst⟩
      rcases mem_dinsert rest k v kv' hkv' with h2 | h2
      · exact h.1 (hfst ▸ List.mem_map_of_mem Prod.fst h2)
      · exact h1 (by rw [← hfst, h2])

theorem dlookup_mem (d : List (String × String)) (k v : String)
    (h : dlookup k d = some v) : (k, v) ∈ d := by
  induction d with
  | nil => simp [dlookup] at h
  | cons kv rest ih =>
    obtain ⟨k1, v1⟩ := kv
    by_cases h1 : k1 = k
    · subst h1
      simp [dlookup] at h
      subst h
      exact List.mem_cons_self _ _
    · simp only [dlookup, if_neg h1] at h
      exact List.mem_cons_of_mem _ (ih h)

theorem mem_dlookup (d : List (String × String)) (k v : String)
    (hnd : (d.map Prod.fst).Nodup) (h : (k, v) ∈ d) : dlookup k d = some v := by
  induction d with
  | nil => simp at h
  | cons kv rest ih =>
    rw [List.map_cons, List.nodup_cons] at hnd
    rcases List.mem_cons.mp h with h1 | h1
    · simp [dlookup, ← h1]
    · have hk : kv.1 ≠ k := by
        intro hh
        exact hnd.1 (hh ▸ List.mem_map_of_mem Prod.fst h1)
      simp only [dlookup, if_neg hk]
      exact ih hnd.2 h1

theorem nodup_keys_buildDict (files : List String) :
    ((buildDict files).map Prod.fst).Nodup := by
  have main : ∀ (l : List String) (d : List (String × String)),
      (d.map Prod.fst).Nodup →
      (((l.foldl (fun d f => dinsert (get_base_name f) f d) d)).map Prod.fst).Nodup := by
    intro l
    induction l with
    | nil => intro d h; simpa using h
    | cons f rest ih =>
      intro d h
      exact ih (dinsert (get_base_name f) f d) (nodup_keys_dinsert d (get_base_name f) f h)
  exact main files [] (by simp)

theorem buildDict_key_eq (files : List String) (kv : String × String)
    (h : kv ∈ buildDict files) : kv.1 = get_base_name kv.2 := by
  have main : ∀ (l : List String) (d : List (String × String)),
      (∀ kv' ∈ d, kv'.1 = get_base_name kv'.2) →
      ∀ kv' ∈ l.foldl (fun d f => dinsert (get_base_name f) f d) d,
        kv'.1 = get_base_name kv'.2 := by
    intro l
    induction l with
    | nil => intro d hd kv' h'; exact hd kv' (by simpa using h')
    | cons f rest ih =>
      intro d hd kv' h'
      refine ih (dinsert (get_base_name f) f d) ?_ kv' h'
      intro kv'' h''
      rcases mem_dinsert d (get_base_name f) f kv'' h'' with h3 | h3
      · exact hd kv'' h3
      · rw [h3]
  exact main files [] (by simp) kv h

theorem dlookup_buildDict (files : List String) (k : String) :
    dlookup k (buildDict files) = lastWithKey k files := by
  have main : ∀ (l : List String) (d : List (String × String)),
      dlookup k (l.foldl (fun d f => dinsert (get_base_name f) f d) d) =
        match lastWithKey k l with
        | some v => some v
        | none => dlookup k d := by
    intro l
    induction l with
    | nil => intro d; simp [lastWithKey]
    | cons f rest ih =>
      intro d
      rw [List.foldl_cons, ih (dinsert (get_base_name f) f d)]
      simp only [lastWithKey]
      cases lastWithKey k rest with
      | some v => rfl
      | none =>
        rw [dlookup_dinsert]
        by_cases h : get_base_name f = k
        · subst h
          simp
        · have h2 : ¬k = get_base_name f := fun hh => h hh.symm
          simp [h, h2]
  rw [buildDict, main files []]
  cases lastWithKey k files with
  | some v => rfl
  | none => rfl

/-- Membership in the matched pairs, characterised through the two dicts. -/
theorem mem_pairs_iff (A B : List String) (p c : String) :
    (p, c) ∈ (matchFiles A B).pairs ↔
      ∃ k, dlookup k (buildDict A) = some p ∧ dlookup k (buildDict B) = some c := by
  constructor
  · intro h
    simp only [matchFiles, List.mem_filterMap] at h
    rcases h with ⟨kv, hkv, heq⟩
    rcases Option.map_eq_some'.mp heq with ⟨c', hc', hpair⟩
    have h1 : kv.2 = p := congrArg Prod.fst hpair
    have h2 : c' = c := congrArg Prod.snd hpair
    refine ⟨kv.1, ?_, h2 ▸ hc'⟩
    have := mem_dlookup (buildDict A) kv.1 kv.2 (nodup_keys_buildDict A)
      (by rw [Prod.mk.eta] at *; exact hkv)
    rw [h1] at this
    exact this
  · intro ⟨k, hA, hB⟩
    simp only [matchFiles, List.mem_filterMap]
    refine ⟨(k, p), dlookup_mem (buildDict A) k p hA, ?_⟩
    rw [hB]
    rfl

/-- Membership in `unmatched_pdfs`, characterised through the two dicts. -/
theorem mem_unmatchedPdfs (A B : List String) (f : String)
    (h : f ∈ (matchFiles A B).unmatchedPdfs) :
    dlookup (get_base_name f) (buildDict A) = some f := by
  simp only [matchFiles, List.mem_filterMap] at h
  rcases h with ⟨kv, hkv, heq⟩
  have h2 : kv.2 = f := by
    cases hd : dlookup kv.1 (buildDict B) with
    | some _ => rw [hd] at heq; simp at heq
    | none => rw [hd] at heq; simpa using heq
  have hk : kv.1 = get_base_name f := h2 ▸ buildDict_key_eq A kv hkv
  have := mem_dlookup (buildDict A) kv.1 kv.2 (nodup_keys_buildDict A)
    (by rw [Prod.mk.eta] at *; exact hkv)
  rw [hk, h2] at this
  exact this

/-- Membership in `unmatched_csvs`, characterised through the two dicts. -/
theorem mem_unmatchedCsvs (A B : List String) (f : String)
    (h : f ∈ (matchFiles A B).unmatchedCsvs) :
    dlookup (get_base_name f) (buildDict B) = some f := by
  simp only [matchFiles, List.mem_filterMap] at h
  rcases h with ⟨kv, hkv, heq⟩
  have h2 : kv.2 = f := by
    cases hd : dlookup kv.1 (buildDict A) with
    | some _ => rw [hd] at heq; simp at heq
    | none => rw [hd] at heq; simpa using heq
  have hk : kv.1 = get_base_name f := h2 ▸ buildDict_key_eq B kv hkv
  have := mem_dlookup (buildDict B) kv.1 kv.2 (nodup_keys_buildDict B)
    (by rw [Prod.mk.eta] at *; exact hkv)
  rw [hk, h2] at this
  exact this

/-- A generic two-way filter partition of a list's length. -/
theorem length_filter_partition {α : Type} (p : α → Bool) (l : List α) :
    (l.filter p).length + (l.filter (fun a => !(p a))).length = l.length := by
  induction l with
  | nil => simp
  | cons a rest ih =>
    cases h : p a <;> simp [List.filter, h, ← ih] <;> omega

/-- Transitivity of boolean list-prefix testing over characters. -/
theorem prefixOf_trans : ∀ {p q r : List Char},
    p.isPrefixOf q = true → q.isPrefixOf r = true → p.isPrefixOf r = true := by
  intro p
  induction p with
  | nil => intro q r _ _; cases r <;> rfl
  | cons a as ih =>
    intro q r h1 h2
    cases q with
    | nil => simp [List.isPrefixOf] at h1
    | cons b bs =>
      cases r with
      | nil => simp [List.isPrefixOf] at h2
      | cons c cs =>
        simp only [List.isPrefixOf, Bool.and_eq_true, beq_iff_eq] at h1 h2 ⊢
        exact ⟨h1.1.trans h2.1, ih h1.2 h2.2⟩

/-- Containment is monotone under shortening the pattern to one of its
leading segments. -/
theorem containsSub_mono {p q : List Char} (hpq : p.isPrefixOf q = true) :
    ∀ {s : List Char}, containsSub q s = true → containsSub p s = true := by
  intro s
  induction s with
  | nil =>
    intro h
    simp only [containsSub, List.isEmpty_iff] at h ⊢
    subst h
    cases p with
    | nil => rfl
    | cons a as => simp [List.isPrefixOf] at hpq
  | cons c rest ih =>
    intro h
    simp only [containsSub, Bool.or_eq_true] at h ⊢
    rcases h with h | h
    · exact Or.inl (prefixOf_trans hpq h)
    · exact Or.inr (ih h)

/-! ## Claim theorems -/

/-- Claim C1: the batch loop records exactly one outcome per matched pair, in
order; a pair whose oracle call fails with message `e` gets an outcome whose
recorded result is the human-readable text `"❌ Error processing: " ++ e`, and
every other pair is still processed normally — the loop never aborts and no
pair is dropped from the results. -/
theorem batch_never_drops_pairs (oracle : String → String → Except String String)
    (pairs : List (String × String)) :
    (runBatch oracle pairs).length = pairs.length ∧
    (∀ (i : Nat) (p c e : String), pairs[i]? = some (p, c) →
      oracle p c = Except.error e →
      (runBatch oracle pairs)[i]? = some ⟨p, c, errorResult e⟩) ∧
    (∀ (i : Nat) (p c t : String), pairs[i]? = some (p, c) →
      oracle p c = Except.ok t →
      (runBatch oracle pairs)[i]? = some ⟨p, c, t⟩) := by
  refine ⟨List.length_map _ _, ?_, ?_⟩
  · intro i p c e h1 h2
    rw [runBatch, List.getElem?_map, h1]
    simp [h2, errorResult]
  · intro i p c t h1 h2
    rw [runBatch, List.getElem?_map, h1]
    simp [h2]

/-- Witness for C1: with a two-pair batch whose first oracle call fails, the
first outcome records the error text and the second is still processed. -/
theorem batch_never_drops_pairs_witness :
    (runBatch oracleW [("a.pdf", "a.csv"), ("b.pdf", "b.csv")])[0]? =
      some ⟨"a.pdf", "a.csv", errorResult "boom"⟩ ∧
    (runBatch oracleW [("a.pdf", "a.csv"), ("b.pdf", "b.csv")])[1]? =
      some ⟨"b.pdf", "b.csv", "All fields match"⟩ :=
  ⟨(batch_never_drops_pairs oracleW [("a.pdf", "a.csv"), ("b.pdf", "b.csv")]).2.1
      0 "a.pdf" "a.csv" "boom" rfl rfl,
   (batch_never_drops_pairs oracleW [("a.pdf", "a.csv"), ("b.pdf", "b.csv")]).2.2
      1 "b.pdf" "b.csv" "All fields match" rfl rfl⟩

/-- Claim C2 counterexample: the summary has no error counter at all.  A pair
whose oracle call fails with a marker-free message is counted by
`match_count = total - discrepancy_count` as a Match, not as an Error, so the
claimed three-way classification is false on the code. -/
theorem summary_error_counted_as_match_cex :
    runBatch failOracle [("a.pdf", "a.csv")] =
      [⟨"a.pdf", "a.csv", "❌ Error processing: connection timeout"⟩] ∧
    discrepancy_count (runBatch failOracle [("a.pdf", "a.csv")]) = 0 ∧
    match_count (runBatch failOracle [("a.pdf", "a.csv")]) = 1 := by
  refine ⟨by decide, by decide, by decide⟩

/-- Claim C2 (amended): the summary has exactly two counters and they satisfy
`match_count + discrepancy_count = total`; an outcome counts as a Discrepancy
iff its recorded result text contains `"DISCREPANCY"` and as a Match otherwise,
failed oracle calls included (their error detail undergoes the same text test). -/
theorem summary_two_way_partition (results : List Outcome) :
    match_count results + discrepancy_count results = results.length ∧
    discrepancy_count results =
      (results.filter (fun r => containsDiscrepancy r.result)).length ∧
    match_count results =
      (results.filter (fun r => !(containsDiscrepancy r.result))).length := by
  have h := length_filter_partition (fun r => containsDiscrepancy r.result) results
  have hle := List.length_filter_le (fun r => containsDiscrepancy r.result) results
  refine ⟨?_, rfl, ?_⟩
  · rw [match_count, discrepancy_count]
    omega
  · rw [match_count, discrepancy_count]
    omega

/-- Claim C3 (code bug, source line 295): due to the missing parentheses in
`"\n\n" + "="*80 + "\n\n".join(...)`, the exported report is NOT a sequence of
blocks separated by a rule line.  The single 80-character rule is glued (with
no newline) directly onto `CLAIM #1`, and consecutive blocks are separated by
a blank line only: for two outcomes the full text contains exactly eighty `=`
characters and the substring `"=CLAIM #1"`. -/
theorem render_single_rule_header_eval :
    results_text [outA, outB] =
      "\n\n" ++ ruleLine ++
        "CLAIM #1\nPDF: a.pdf\nCSV: a.csv\n\nR1\n\nCLAIM #2\nPDF: b.pdf\nCSV: b.csv\n\nR2" ∧
    (results_text [outA, outB]).data.count '=' = 80 ∧
    containsSub "=CLAIM #1".data (results_text [outA, outB]).data = true := by
  refine ⟨by decide, by decide, by decide⟩

/-- Claim C4 counterexample: `Path(filename).stem` does not strip "the portion
after the last dot" when that dot is the leading character: on the filename
`".pdf"` the code keeps `".pdf"` while the claim's reading yields `""`. -/
theorem normalize_claim_stem_cex :
    get_base_name ".pdf" = ".pdf" ∧ claim_normalize ".pdf" = "" ∧
    ¬ get_base_name ".pdf" = claim_normalize ".pdf" := by
  refine ⟨by decide, by decide, by decide⟩

/-- Claim C4 (amended): `get_base_name` strips the extension with `Path.stem`
semantics (only an interior last dot starts a removable suffix), then removes
the six tokens wherever they occur as substrings in the fixed order, then trims
and lower-cases; it is total and may return the empty string.  The concrete
conjuncts show mid-name (not only trailing) token removal and an empty result. -/
theorem normalize_matches_amended_spec (f : String) :
    get_base_name f = normalize_amended f ∧
    get_base_name "x_claimy.pdf" = "xy" ∧
    get_base_name " claim.pdf" = "" := by
  refine ⟨?_, by decide, by decide⟩
  simp only [get_base_name, normalize_amended, suffixTokens, List.foldl]

/-- Claim C5: when several files of one side normalize to the same key, the
dict keeps only the last such file of the input sequence; an earlier file is
silently dropped — it appears in no pair and in no unmatched list. -/
theorem matcher_last_write_wins (pdfs csvs : List String) (f1 : String)
    (_h1 : f1 ∈ pdfs)
    (h2 : lastWithKey (get_base_name f1) pdfs ≠ some f1) :
    dlookup (get_base_name f1) (buildDict pdfs) = lastWithKey (get_base_name f1) pdfs ∧
    (∀ c, (f1, c) ∉ (matchFiles pdfs csvs).pairs) ∧
    f1 ∉ (matchFiles pdfs csvs).unmatchedPdfs ∧
    (∀ g1, g1 ∈ csvs → lastWithKey (get_base_name g1) csvs ≠ some g1 →
      (∀ p, (p, g1) ∉ (matchFiles pdfs csvs).pairs) ∧
      g1 ∉ (matchFiles pdfs csvs).unmatchedCsvs) := by
  refine ⟨dlookup_buildDict pdfs (get_base_name f1), ?_, ?_, ?_⟩
  · intro c h
    rcases (mem_pairs_iff pdfs csvs f1 c).mp h with ⟨k, hA, hB⟩
    have hk : k = get_base_name f1 :=
      buildDict_key_eq pdfs (k, f1) (dlookup_mem (buildDict pdfs) k f1 hA)
    rw [hk, dlookup_buildDict] at hA
    exact h2 hA
  · intro h
    have h3 := mem_unmatchedPdfs pdfs csvs f1 h
    rw [dlookup_buildDict] at h3
    exact h2 h3
  · intro g1 _ hg2
    constructor
    · intro p hp
      rcases (mem_pairs_iff pdfs csvs p g1).mp hp with ⟨k, hA, hB⟩
      have hk : k = get_base_name g1 :=
        buildDict_key_eq csvs (k, g1) (dlookup_mem (buildDict csvs) k g1 hB)
      rw [hk, dlookup_buildDict] at hB
      exact hg2 hB
    · intro h
      have h3 := mem_unmatchedCsvs pdfs csvs g1 h
      rw [dlookup_buildDict] at h3
      exact hg2 h3

/-- Witness for C5: `a_claim.pdf` and `a_invoice.pdf` both normalize to `a`;
only the later `a_invoice.pdf` is paired with `a.csv`, and the earlier
`a_claim.pdf` occurs in no pair and not in the unmatched list. -/
theorem matcher_last_write_wins_witness :
    (matchFiles ["a_claim.pdf", "a_invoice.pdf"] ["a.csv"]).pairs =
      [("a_invoice.pdf", "a.csv")] ∧
    (∀ c, ("a_claim.pdf", c) ∉
      (matchFiles ["a_claim.pdf", "a_invoice.pdf"] ["a.csv"]).pairs) ∧
    "a_claim.pdf" ∉ (matchFiles ["a_claim.pdf", "a_invoice.pdf"] ["a.csv"]).unmatchedPdfs :=
  ⟨by decide,
   (matcher_last_write_wins ["a_claim.pdf", "a_invoice.pdf"] ["a.csv"] "a_claim.pdf"
      (by decide) (by decide)).2.1,
   (matcher_last_write_wins ["a_claim.pdf", "a_invoice.pdf"] ["a.csv"] "a_claim.pdf"
      (by decide) (by decide)).2.2.1⟩

/-- Claim C6: a recorded result is classified Discrepancy iff it contains the
literal substring `"DISCREPANCY"` (case-sensitive), otherwise Match; in
particular any text containing `"DISCREPANCY FOUND"` is a Discrepancy. -/
theorem classify_discrepancy_iff_marker (t : String) :
    (classifyResult t = Status.Discrepancy ↔
      containsSub "DISCREPANCY".data t.data = true) ∧
    (containsSub "DISCREPANCY FOUND".data t.data = true →
      classifyResult t = Status.Discrepancy) ∧
    (containsSub "DISCREPANCY".data t.data = false →
      classifyResult t = Status.Match) := by
  refine ⟨?_, ?_, ?_⟩
  · rw [classifyResult, containsDiscrepancy]
    cases h : containsSub "DISCREPANCY".data t.data <;> simp [h]
  · intro h
    have h2 : containsSub "DISCREPANCY".data t.data = true :=
      containsSub_mono (by decide) h
    simp [classifyResult, containsDiscrepancy, h2]
  · intro h
    simp [classifyResult, containsDiscrepancy, h]

/-- Witness for C6: a response with `"DISCREPANCY FOUND"` classifies as
Discrepancy; a response without the marker classifies as Match. -/
theorem classify_discrepancy_iff_marker_witness :
    classifyResult "Status: DISCREPANCY FOUND in totals" = Status.Discrepancy ∧
    classifyResult "Status: MATCH, all fields match" = Status.Match :=
  ⟨(classify_discrepancy_iff_marker "Status: DISCREPANCY FOUND in totals").2.1
      (by decide),
   (classify_discrepancy_iff_marker "Status: MATCH, all fields match").2.2
      (by decide)⟩

/-- Claim C7: an empty document or reference set yields zero pairs, and with
zero matched pairs the run never reaches the batch loop: no outcome list is
produced, the result does not depend on the oracle (no oracle call is made),
and on the confirmed path the abort is the no-matches error. -/
theorem zero_pairs_aborts_before_oracle (confirmed : Bool)
    (oracle : String → String → Except String String) (pdfs csvs : List String) :
    ((pdfs = [] ∨ csvs = []) → (matchFiles pdfs csvs).pairs = []) ∧
    ((matchFiles pdfs csvs).pairs = [] →
      (∀ outs, processRun confirmed oracle pdfs csvs ≠ Except.ok outs) ∧
      (confirmed = true →
        processRun confirmed oracle pdfs csvs = Except.error RunAbort.noMatch) ∧
      (∀ oracle2, processRun confirmed oracle2 pdfs csvs =
        processRun confirmed oracle pdfs csvs)) := by
  constructor
  · intro h
    rw [List.eq_nil_iff_forall_not_mem]
    intro pr hpr
    obtain ⟨p, c⟩ := pr
    rcases (mem_pairs_iff pdfs csvs p c).mp hpr with ⟨k, hA, hB⟩
    rcases h with h | h
    · subst h
      simp [buildDict, dlookup] at hA
    · subst h
      simp [buildDict, dlookup] at hB
  · intro hz
    have hrun : ∀ oc : String → String → Except String String,
        processRun confirmed oc pdfs csvs =
          if ((!(matchFiles pdfs csvs).unmatchedPdfs.isEmpty ||
              !(matchFiles pdfs csvs).unmatchedCsvs.isEmpty) && !confirmed) = true then
            Except.error RunAbort.unconfirmedStop
          else
            Except.error RunAbort.noMatch := by
      intro oc
      simp only [processRun]
      cases hc : (!(matchFiles pdfs csvs).unmatchedPdfs.isEmpty ||
          !(matchFiles pdfs csvs).unmatchedCsvs.isEmpty) && !confirmed
      · simp [hc, hz]
      · simp [hc]
    refine ⟨?_, ?_, ?_⟩
    · intro outs
      rw [hrun oracle]
      cases hc : (!(matchFiles pdfs csvs).unmatchedPdfs.isEmpty ||
          !(matchFiles pdfs csvs).unmatchedCsvs.isEmpty) && !confirmed <;>
        simp [hc]
    · intro hcT
      subst hcT
      rw [hrun oracle]
      simp
    · intro oracle2
      rw [hrun oracle2, hrun oracle]

/-- Witness for C7: with no documents at all, matching yields zero pairs and
the confirmed run aborts with the no-matches error. -/
theorem zero_pairs_aborts_before_oracle_witness :
    (matchFiles [] ["a.csv"]).pairs = [] ∧
    processRun true failOracle [] ["a.csv"] = Except.error RunAbort.noMatch :=
  ⟨(zero_pairs_aborts_before_oracle true failOracle [] ["a.csv"]).1 (Or.inl rfl),
   ((zero_pairs_aborts_before_oracle true failOracle [] ["a.csv"]).2
      ((zero_pairs_aborts_before_oracle true failOracle [] ["a.csv"]).1
        (Or.inl rfl))).2.1 rfl⟩

/-- Claim C8: matching is commutative in the two sides: swapping the inputs
and swapping each resulting pair's components gives the same set of pairs, and
the two unmatched lists are exchanged (here even as equal lists). -/
theorem match_commutes_on_swap (A B : List String) :
    (∀ x : String × String,
      x ∈ (matchFiles A B).pairs.map Prod.swap ↔ x ∈ (matchFiles B A).pairs) ∧
    (matchFiles A B).unmatchedPdfs = (matchFiles B A).unmatchedCsvs ∧
    (matchFiles A B).unmatchedCsvs = (matchFiles B A).unmatchedPdfs := by
  refine ⟨?_, rfl, rfl⟩
  intro x
  obtain ⟨c, p⟩ := x
  constructor
  · intro h
    rcases List.mem_map.mp h with ⟨pr, hpr, hsw⟩
    obtain ⟨p', c'⟩ := pr
    have hc : c' = c := congrArg Prod.fst hsw
    have hp : p' = p := congrArg Prod.snd hsw
    rcases (mem_pairs_iff A B p' c').mp hpr with ⟨k, hA, hB⟩
    exact (mem_pairs_iff B A c p).mpr ⟨k, hc ▸ hB, hp ▸ hA⟩
  · intro h
    rcases (mem_pairs_iff B A c p).mp h with ⟨k, hB, hA⟩
    exact List.mem_map.mpr ⟨(p, c), (mem_pairs_iff A B p c).mpr ⟨k, hA, hB⟩, rfl⟩

/-- Claim C9: token removal runs on the stem before lower-casing, so a token
spelled with an uppercase letter is not removed: `abc_claim.pdf` normalizes to
`abc` but `abc_Claim.csv` to `abc_claim`, the keys differ, and the two files
are not paired. -/
theorem normalization_case_sensitive_tokens :
    get_base_name "abc_claim.pdf" = "abc" ∧
    get_base_name "abc_Claim.csv" = "abc_claim" ∧
    ¬ get_base_name "abc_claim.pdf" = get_base_name "abc_Claim.csv" ∧
    (matchFiles ["abc_claim.pdf"] ["abc_Claim.csv"]).pairs = [] ∧
    (matchFiles ["abc_claim.pdf"] ["abc_Claim.csv"]).unmatchedPdfs = ["abc_claim.pdf"] ∧
    (matchFiles ["abc_claim.pdf"] ["abc_Claim.csv"]).unmatchedCsvs = ["abc_Claim.csv"] := by
  refine ⟨by decide, by decide, by decide, by decide, by decide, by decide⟩

/-- Claim C10: the discrepancy counter scans the recorded result string of
every outcome, the error detail of a failed pair included: a pair failing with
a message containing `"DISCREPANCY"` is counted as a Discrepancy, not as an
error (the summary has no error counter and its Match side excludes it). -/
theorem error_detail_counted_as_discrepancy :
    runBatch failDiscOracle [("a.pdf", "a.csv")] =
      [⟨"a.pdf", "a.csv", "❌ Error processing: DISCREPANCY checker crashed"⟩] ∧
    discrepancy_count (runBatch failDiscOracle [("a.pdf", "a.csv")]) = 1 ∧
    match_count (runBatch failDiscOracle [("a.pdf", "a.csv")]) = 0 := by
  refine ⟨by decide, by decide, by decide⟩

/-- Witness for C8: a concrete instantiation of the pair-set commutativity at
a matching document/reference pair. -/
theorem match_commutes_on_swap_witness :
    ("a.csv", "a_claim.pdf") ∈
        (matchFiles ["a_claim.pdf"] ["a.csv"]).pairs.map Prod.swap ↔
      ("a.csv", "a_claim.pdf") ∈ (matchFiles ["a.csv"] ["a_claim.pdf"]).pairs :=
  (match_commutes_on_swap ["a_claim.pdf"] ["a.csv"]).1 ("a.csv", "a_claim.pdf")
